import Mathlib

/-!
Verification model of the TirAImisu notification-derivation engine.

Shallow embedding of:
  - Backend/medications/repository.py  (event projector `get_medication_events`)
  - Backend/notifications/service.py   (runout estimator, reminder / low-stock /
    event-soon passes, advice cache, top-level `get_notifications`)
  - Backend/storage/events.py          (calendar-event cache)

Modelling conventions:
  - Instants are integers counting seconds (a naive local `datetime` is its
    local epoch-second value; `_to_local_naive` normalization is the identity
    on this representation).  Sub-second precision is dropped.
  - Python JSON-ish dynamic values are the inductive `PyVal`; dicts are
    association lists; Python truthiness is `truthy`.
  - Python numbers are modelled over `ℚ`; where the program's behaviour
    depends on binary64 rounding — the runout-days quotient and its
    `is_integer()` test — the float is modelled bit-faithfully as a
    correctly rounded significand/exponent pair (`ratToFloat`,
    round-to-nearest, ties-to-even), matching CPython's arithmetic.
  - File I/O is explicit state passing: a JSON file on disk is a `JsonFile`;
    a successful write replaces the whole file (the source writes via
    temp-file + atomic rename).
  - External collaborators (calendar fetch, LLM call) are parameters.
-/

/-- Model of a Python/JSON dynamic value as stored in the flat JSON files. -/
inductive PyVal where
  | none : PyVal
  | bool : Bool → PyVal
  | int : ℤ → PyVal
  | float : ℚ → PyVal
  | str : String → PyVal
  | list : List PyVal → PyVal
  | dict : List (String × PyVal) → PyVal

/-- Python truthiness (`bool(x)`): None, False, 0, 0.0, "", [], `\x7b\x7d` are falsy. -/
def truthy : PyVal → Bool
  | .none => false
  | .bool b => b
  | .int n => n != 0
  | .float q => q != 0
  | .str s => s != ""
  | .list l => !l.isEmpty
  | .dict d => !d.isEmpty

/-- `d.get(k)` on a Python dict modelled as an association list. -/
def dictGet (d : List (String × PyVal)) (k : String) : Option PyVal :=
  (d.find? (fun p => p.1 == k)).map (·.2)

/-- `d.get(k, default)` on a Python dict. -/
def dictGetD (d : List (String × PyVal)) (k : String) (v : PyVal) : PyVal :=
  (dictGet d k).getD v

/-- Python dict assignment `d[k] = v`: update the existing binding in place,
else append a new one at the end. -/
def assocSet {α : Type} : List (String × α) → String → α → List (String × α)
  | [], k, v => [(k, v)]
  | (k', v') :: rest, k, v =>
    if k' == k then (k, v) :: rest else (k', v') :: assocSet rest k v

/-- Lookup in an association list (generic value type). -/
def assocGet {α : Type} (d : List (String × α)) (k : String) : Option α :=
  (d.find? (fun p => p.1 == k)).map (·.2)

/-- Python `repr(x)` (used by `str` on containers).  Numeric and escaping
details are simplified where no claim depends on them. -/
def pyReprOf : PyVal → String
  | .none => "None"
  | .bool b => if b then "True" else "False"
  | .int n => toString n
  | .float q => toString q
  | .str s => "\x27" ++ s ++ "\x27"
  | .list l => "[" ++ String.intercalate ", " (l.attach.map (fun x => pyReprOf x.1)) ++ "]"
  | .dict d =>
      "\x7b" ++
        String.intercalate ", "
          (d.attach.map (fun p => "\x27" ++ p.1.1 ++ "\x27: " ++ pyReprOf p.1.2)) ++
      "\x7d"
decreasing_by
  · have := List.sizeOf_lt_of_mem x.2
    simp only [PyVal.list.sizeOf_spec]
    omega
  · rcases p with ⟨⟨a, b⟩, hp⟩
    have := List.sizeOf_lt_of_mem hp
    simp only [PyVal.dict.sizeOf_spec, Prod.mk.sizeOf_spec] at *
    omega

/-- Python `str(x)`. -/
def pyStrOf (v : PyVal) : String :=
  match v with
  | .str s => s
  | w => pyReprOf w

/-- Python `s.strip()` (whitespace at both ends). -/
def pyStrip (s : String) : String :=
  String.mk (((s.data.dropWhile (fun c => c.isWhitespace)).reverse.dropWhile
    (fun c => c.isWhitespace)).reverse)

/-- Python `s.rstrip()` (trailing whitespace). -/
def pyRstrip (s : String) : String :=
  String.mk ((s.data.reverse.dropWhile (fun c => c.isWhitespace)).reverse)

/-- Python slicing `s[:n]` (by characters / code points). -/
def pyTake (s : String) (n : ℕ) : String := String.mk (s.data.take n)

/-- ASCII lowering of one character (Python `str.lower`; non-ASCII letters
not modelled — the source only compares against `"daily"`/`"weekly"`). -/
def charLower (c : Char) : Char :=
  if 65 ≤ c.toNat ∧ c.toNat ≤ 90 then Char.ofNat (c.toNat + 32) else c

/-- Python `s.lower()`. -/
def pyLower (s : String) : String := String.mk (s.data.map charLower)

/-- Split a character list on a one-character separator (Python
`str.split(sep)`). -/
def splitOnChar (sep : Char) : List Char → List (List Char)
  | [] => [[]]
  | c :: rest =>
    let r := splitOnChar sep rest
    if c = sep then [] :: r else (c :: r.headD []) :: r.tail

/-- Value of a list of decimal digit characters, `Option.none` when empty or
a non-digit appears. -/
def digitsVal : List Char → Option ℕ
  | [] => Option.none
  | l => l.foldl (fun acc c =>
      match acc with
      | Option.none => Option.none
      | some n => if c.isDigit then some (n * 10 + (c.toNat - 48)) else Option.none)
      (some 0)

/-- Python `int(s)` on a string: optional surrounding whitespace, optional
sign, decimal digits (underscore grouping not modelled). -/
def parseIntLit (s : String) : Option ℤ :=
  let t := pyStrip s
  match t.data with
  | '-' :: rest => (digitsVal rest).map (fun n => -(n : ℤ))
  | '+' :: rest => (digitsVal rest).map (fun n => (n : ℤ))
  | l => (digitsVal l).map (fun n => (n : ℤ))

/-- Python `float(s)` on a string: optional sign, `digits[.digits]`
(exponents, `inf`, `nan` not modelled). -/
def parseFloatLit (s : String) : Option ℚ :=
  let core : List Char → Option ℚ := fun l =>
    match splitOnChar '.' l with
    | [a] => (digitsVal a).map (fun n => (n : ℚ))
    | [a, b] =>
      if a = [] ∧ b = [] then Option.none
      else
        let okA : Bool := a.isEmpty || (digitsVal a).isSome
        let okB : Bool := b.isEmpty || (digitsVal b).isSome
        if okA && okB then
          let ip : ℚ := match digitsVal a with
            | some n => (n : ℚ)
            | Option.none => 0
          let fp : ℚ := match digitsVal b with
            | some n => (n : ℚ) / ((10 : ℚ) ^ b.length)
            | Option.none => 0
          some (ip + fp)
        else Option.none
    | _ => Option.none
  match (pyStrip s).data with
  | '-' :: rest => (core rest).map (fun q => -q)
  | '+' :: rest => core rest
  | l => core l

/-- Truncation toward zero, as Python `int(float)`. -/
def ratTrunc (q : ℚ) : ℤ := if 0 ≤ q then ⌊q⌋ else ⌈q⌉

/-- Python `int(x)`; `Option.none` models a raised exception. -/
def pyInt : PyVal → Option ℤ
  | .int n => some n
  | .float q => some (ratTrunc q)
  | .bool b => some (if b then 1 else 0)
  | .str s => parseIntLit s
  | _ => Option.none

/-- Python `float(x)`; `Option.none` models a raised exception. -/
def pyFloat : PyVal → Option ℚ
  | .int n => some (n : ℚ)
  | .float q => some q
  | .bool b => some (if b then 1 else 0)
  | .str s => parseFloatLit s
  | _ => Option.none

/-- Insert into a sorted list (used to model Python's stable key sort and
`sorted`). -/
def insertSorted {α : Type} (le : α → α → Bool) (x : α) : List α → List α
  | [] => [x]
  | y :: ys => if le x y then x :: y :: ys else y :: insertSorted le x ys

/-- Sorting by a boolean comparison, modelling Python `sorted` / `list.sort`
(any stable comparison sort has the same input/output contract). -/
def sortBy {α : Type} (le : α → α → Bool) (l : List α) : List α :=
  l.foldr (insertSorted le) []

/-- Code-point lexicographic order on char lists (Python string `<=`). -/
def charListLe : List Char → List Char → Bool
  | [], _ => true
  | _ :: _, [] => false
  | a :: as, b :: bs =>
    if a.toNat < b.toNat then true
    else if b.toNat < a.toNat then false
    else charListLe as bs

/-- Python string comparison `a <= b`. -/
def pyStrLe (a b : String) : Bool := charListLe a.data b.data

/-- Reduction modulo 2^32 for SHA-256 word arithmetic. -/
def w32 (n : ℕ) : ℕ := n % 4294967296

/-- 32-bit right rotation. -/
def rotr32 (n x : ℕ) : ℕ := w32 ((x >>> n) ||| (x <<< (32 - n)))

/-- SHA-256 Ch function. -/
def shaCh (e f g : ℕ) : ℕ := (e &&& f) ^^^ ((e ^^^ 4294967295) &&& g)

/-- SHA-256 Maj function. -/
def shaMaj (a b c : ℕ) : ℕ := (a &&& b) ^^^ (a &&& c) ^^^ (b &&& c)

/-- SHA-256 big sigma 0. -/
def shaS0 (a : ℕ) : ℕ := rotr32 2 a ^^^ rotr32 13 a ^^^ rotr32 22 a

/-- SHA-256 big sigma 1. -/
def shaS1 (e : ℕ) : ℕ := rotr32 6 e ^^^ rotr32 11 e ^^^ rotr32 25 e

/-- SHA-256 small sigma 0. -/
def shas0 (x : ℕ) : ℕ := rotr32 7 x ^^^ rotr32 18 x ^^^ (x >>> 3)

/-- SHA-256 small sigma 1. -/
def shas1 (x : ℕ) : ℕ := rotr32 17 x ^^^ rotr32 19 x ^^^ (x >>> 10)

/-- SHA-256 round constants. -/
def shaK : List ℕ :=
  [1116352408, 1899447441, 3049323471, 3921009573, 961987163,
   1508970993, 2453635748, 2870763221, 3624381080, 310598401,
   607225278, 1426881987, 1925078388, 2162078206, 2614888103,
   3248222580, 3835390401, 4022224774, 264347078, 604807628,
   770255983, 1249150122, 1555081692, 1996064986, 2554220882,
   2821834349, 2952996808, 3210313671, 3336571891, 3584528711,
   113926993, 338241895, 666307205, 773529912, 1294757372,
   1396182291, 1695183700, 1986661051, 2177026350, 2456956037,
   2730485921, 2820302411, 3259730800, 3345764771, 3516065817,
   3600352804, 4094571909, 275423344, 430227734, 506948616,
   659060556, 883997877, 958139571, 1322822218, 1537002063,
   1747873779, 1955562222, 2024104815, 2227730452, 2361852424,
   2428436474, 2756734187, 3204031479, 3329325298]

/-- Big-endian byte decomposition of `n` into `k` bytes. -/
def bytesBE (k n : ℕ) : List ℕ :=
  (List.range k).map (fun i => (n >>> (8 * (k - 1 - i))) % 256)

/-- SHA-256 message padding to a multiple of 64 bytes. -/
def shaPad (msg : List ℕ) : List ℕ :=
  let L := msg.length
  let z := (119 - L % 64) % 64
  msg ++ 128 :: List.replicate z 0 ++ bytesBE 8 (8 * L)

/-- Big-endian 32-bit word `i` of a 64-byte chunk. -/
def wordOf (b : List ℕ) (i : ℕ) : ℕ :=
  (b.getD (4 * i) 0) <<< 24 ||| (b.getD (4 * i + 1) 0) <<< 16 |||
  (b.getD (4 * i + 2) 0) <<< 8 ||| b.getD (4 * i + 3) 0

/-- SHA-256 message schedule (64 words). -/
def shaSchedule (chunk : List ℕ) : Array ℕ :=
  let w0 := ((List.range 16).map (wordOf chunk)).toArray
  (List.range 48).foldl (fun w t =>
    let i := t + 16
    w.push (w32 (shas1 (w.getD (i - 2) 0) + w.getD (i - 7) 0 +
      shas0 (w.getD (i - 15) 0) + w.getD (i - 16) 0))) w0

/-- SHA-256 working state. -/
structure Sha8 where
  a : ℕ
  b : ℕ
  c : ℕ
  d : ℕ
  e : ℕ
  f : ℕ
  g : ℕ
  h : ℕ

/-- SHA-256 compression of one 64-byte chunk. -/
def shaCompress (hs : Sha8) (chunk : List ℕ) : Sha8 :=
  let w := shaSchedule chunk
  let st := (List.range 64).foldl (fun (s : Sha8) t =>
    let t1 := w32 (s.h + shaS1 s.e + shaCh s.e s.f s.g + shaK.getD t 0 + w.getD t 0)
    let t2 := w32 (shaS0 s.a + shaMaj s.a s.b s.c)
    ⟨w32 (t1 + t2), s.a, s.b, s.c, w32 (s.d + t1), s.e, s.f, s.g⟩) hs
  ⟨w32 (hs.a + st.a), w32 (hs.b + st.b), w32 (hs.c + st.c), w32 (hs.d + st.d),
   w32 (hs.e + st.e), w32 (hs.f + st.f), w32 (hs.g + st.g), w32 (hs.h + st.h)⟩

/-- SHA-256 digest (32 bytes) of a byte string. -/
def sha256 (msg : List ℕ) : List ℕ :=
  let p := shaPad msg
  let n := p.length / 64
  let hf := (List.range n).foldl
    (fun hs i => shaCompress hs ((p.drop (64 * i)).take 64))
    ⟨1779033703, 3144134277, 1013904242, 2773480762,
     1359893119, 2600822924, 528734635, 1541459225⟩
  bytesBE 4 hf.a ++ bytesBE 4 hf.b ++ bytesBE 4 hf.c ++ bytesBE 4 hf.d ++
  bytesBE 4 hf.e ++ bytesBE 4 hf.f ++ bytesBE 4 hf.g ++ bytesBE 4 hf.h

/-- Lowercase hex digit. -/
def hexChar (n : ℕ) : Char :=
  if n < 10 then Char.ofNat (48 + n) else Char.ofNat (87 + n)

/-- Lowercase hex string of a byte list (`hashlib.…hexdigest()`). -/
def bytesToHex (bs : List ℕ) : String :=
  String.mk (bs.foldr (fun b acc => hexChar (b / 16) :: hexChar (b % 16) :: acc) [])

/-- UTF-8 encoding of a string (`s.encode("utf-8")`). -/
def utf8Bytes (s : String) : List ℕ := s.toUTF8.toList.map (fun b => b.toNat)

/-- JSON escaping of one character (`json.dumps` with `ensure_ascii=False`). -/
def jsonEscapeChar (c : Char) : String :=
  if c = '"' then "\\\""
  else if c = '\\' then "\\\\"
  else if c = '\n' then "\\n"
  else if c = '\r' then "\\r"
  else if c = '\t' then "\\t"
  else if c.toNat = 8 then "\\b"
  else if c.toNat = 12 then "\\f"
  else if c.toNat < 32 then
    "\\u00" ++ String.mk [hexChar (c.toNat / 16), hexChar (c.toNat % 16)]
  else String.singleton c

/-- JSON string literal of `s`. -/
def jstr (s : String) : String :=
  "\"" ++ String.join (s.data.map jsonEscapeChar) ++ "\""

/-- Model of one JSON file on disk.  `unreadable` covers both an unreadable
file and invalid JSON (`json.load` raising); `content` holds the decoded
JSON value. -/
inductive JsonFile where
  | missing : JsonFile
  | unreadable : JsonFile
  | content : PyVal → JsonFile

/-- `_load_advice_cache` (service.py): missing file, unreadable/invalid JSON,
or a non-dict document all yield the empty cache. -/
def load_advice_cache : JsonFile → List (String × PyVal)
  | .content (.dict d) => d
  | _ => []

/-- `_save_advice_cache` (service.py): atomic whole-file replacement with the
serialized dict (the success path; failures are logged and swallowed). -/
def save_advice_cache (cache : List (String × PyVal)) : JsonFile :=
  .content (.dict cache)

/-- `_advice_cache_get` (service.py). -/
def advice_cache_get (key : String) (f : JsonFile) : Option PyVal :=
  dictGet (load_advice_cache f) key

/-- `_advice_cache_set` (service.py): load, assign, save. -/
def advice_cache_set (key : String) (value : PyVal) (f : JsonFile) : JsonFile :=
  save_advice_cache (assocSet (load_advice_cache f) key value)

/-- `_load_cache` (storage/events.py): missing file, unreadable/invalid JSON,
or a non-dict document all yield the empty cache. -/
def load_cache : JsonFile → List (String × PyVal)
  | .content (.dict d) => d
  | _ => []

/-- `_save_cache` (storage/events.py): atomic whole-file replacement. -/
def save_cache (d : List (String × PyVal)) : JsonFile :=
  .content (.dict d)

/-- `get_events` (storage/events.py): `cache.get(calendar_id, [])`. -/
def get_events (calendar_id : String) (f : JsonFile) : PyVal :=
  dictGetD (load_cache f) calendar_id (.list [])

/-- `set_events` (storage/events.py): load, assign, save. -/
def set_events (calendar_id : String) (events : List PyVal) (f : JsonFile) : JsonFile :=
  save_cache (assocSet (load_cache f) calendar_id (.list events))

/-- `_make_advice_cache_key` (service.py): canonical JSON serialization of the
semantic context (keys in sorted order, `json.dumps` separators), hashed with
SHA-256.  `event_start` is an instant in seconds, so `int(.timestamp())` is
the value itself; `baseUrl` models `os.getenv("OPENAI_BASE_URL") or
"default"`. -/
def make_advice_cache_key (event_id : String) (event_start : ℤ)
    (event_title : String) (event_description : String)
    (medications : List String) (baseUrl : String) : String :=
  let raw :=
    "\x7b\"base_url\": " ++ jstr baseUrl ++
    ", \"desc\": " ++ jstr (pyTake event_description 256) ++
    ", \"eventId\": " ++ jstr event_id ++
    ", \"meds\": [" ++
      String.intercalate ", " ((sortBy pyStrLe medications).map jstr) ++ "]" ++
    ", \"model\": \"gpt-5-nano\"" ++
    ", \"start\": " ++ toString event_start ++
    ", \"title\": " ++ jstr event_title ++
    "\x7d"
  "adv:" ++ bytesToHex (sha256 (utf8Bytes raw))

/-- External text-generation collaborator: given (title, trimmed description,
start, medication names) it returns the raw completion content, or
`Option.none` when the call fails / raises. -/
def LlmOracle : Type := String → String → ℤ → List String → Option String

/-- Post-processing of the completion content in
`_llm_personalized_event_advice` (service.py lines 527-530). -/
def truncate_advice (content : String) : String :=
  if content.length > 200 then pyRstrip (pyTake content 200) ++ "…" else content

/-- `_llm_personalized_event_advice` (service.py): prompt construction feeds
the collaborator; any failure returns the empty string, otherwise the content
is truncated to 200 characters plus an ellipsis. -/
def llm_personalized_event_advice (oracle : LlmOracle) (event_title : String)
    (event_description : String) (event_start : ℤ)
    (medications : List String) : String :=
  let desc0 := pyStrip event_description
  let desc := if desc0.length > 600 then pyTake desc0 600 ++ "…" else desc0
  match oracle event_title desc event_start medications with
  | Option.none => ""
  | some content => truncate_advice content

/-- Calendar day of an instant (naive local date, no DST modelled). -/
def dayOf (t : ℤ) : ℤ := t.fdiv 86400

/-- Gregorian leap year. -/
def isLeap (y : ℕ) : Bool := (y % 4 == 0 && y % 100 != 0) || y % 400 == 0

/-- Days in a month. -/
def daysInMonth (y m : ℕ) : ℕ :=
  if m = 2 then (if isLeap y then 29 else 28)
  else if m = 4 ∨ m = 6 ∨ m = 9 ∨ m = 11 then 30 else 31

/-- Day number (days since 1970-01-01) of a civil date, standard
days-from-civil computation. -/
def daysFromCivil (y m d : ℤ) : ℤ :=
  let y2 := y - (if m ≤ 2 then 1 else 0)
  let era := y2.fdiv 400
  let yoe := y2 - era * 400
  let mp := (m + 9).emod 12
  let doy := (153 * mp + 2).fdiv 5 + d - 1
  let doe := yoe * 365 + yoe.fdiv 4 - yoe.fdiv 100 + doy
  era * 146097 + doe - 719468

/-- `datetime.strptime(s, "%Y-%m-%d").date()` as a day number;
`Option.none` models the raised `ValueError`. -/
def parse_ymd (s : String) : Option ℤ :=
  match splitOnChar '-' s.data with
  | [ys, ms, ds] =>
    match digitsVal ys, digitsVal ms, digitsVal ds with
    | some y, some m, some d =>
      if 1 ≤ m ∧ m ≤ 12 ∧ 1 ≤ d ∧ d ≤ daysInMonth y m then
        some (daysFromCivil (y : ℤ) (m : ℤ) (d : ℤ))
      else Option.none
    | _, _, _ => Option.none
  | _ => Option.none

/-- `parse_time_to_hour` (repository.py): hour from an `"HH:MM"`-ish value,
clamped to 0..23, with 8 on any exception. -/
def parse_time_to_hour (val : PyVal) : ℤ :=
  match (if truthy val then val else .str "0") with
  | .str s =>
    match parseIntLit (String.mk ((splitOnChar ':' s.data).headD [])) with
    | some hh => max 0 (min 23 hh)
    | Option.none => 8
  | _ => 8

/-- One projected dose event (`get_medication_events` element).  `start` and
`stop` are instants in seconds; the source stores them as ISO strings which
the consumers parse back. -/
structure MedEvent where
  id : String
  title : String
  start : ℤ
  stop : ℤ
deriving DecidableEq

/-- Occurrence count used by `get_medication_events` (repository.py line
221-225): `max(1, int(qty_left))`, 1 on exception. -/
def med_occurrences (qty_left : PyVal) : ℕ :=
  match pyInt qty_left with
  | some n => (max 1 n).toNat
  | Option.none => 1

/-- Event-projection of one medication record (`get_medication_events` loop
body, repository.py).  `today` is the current day number
(`date.today()`); `Option.none` models the `AttributeError` raised when the
record's `schedule` is a truthy non-dict. -/
def medication_events_for (today : ℤ) (m : List (String × PyVal)) :
    Option (List MedEvent) :=
  let schedVal := dictGetD m "schedule" .none
  let schedVal := if truthy schedVal then schedVal else .dict []
  match schedVal with
  | .dict schedule =>
    let drug_name := pyStrip (pyStrOf (dictGetD m "drug_name" (.str "")))
    let strength := pyStrip (pyStrOf (dictGetD m "strength" (.str "")))
    let sched_type := pyLower (pyStrOf (dictGetD schedule "type" (.str "daily")))
    let occurrences := med_occurrences (dictGetD m "quantity_left" (.int 1))
    let hi_th : ℤ × ℤ :=
      if sched_type = "daily" then
        let times := dictGetD schedule "times" .none
        let times := if truthy times then times else .list []
        (24, match times with
             | .list (t0 :: _) => parse_time_to_hour t0
             | _ => 8)
      else if sched_type = "weekly" then
        let tv := dictGetD schedule "time" .none
        (168, parse_time_to_hour (if truthy tv then tv else .str "08:00"))
      else (24, 8)
    let startDay : ℤ :=
      let sd := dictGetD m "start_date" .none
      if truthy sd then
        match sd with
        | .str s => (parse_ymd s).getD today
        | _ => today
      else today
    let base_start := startDay * 86400 + hi_th.2 * 3600
    let title0 := pyStrip (drug_name ++ " " ++ strength)
    some ((List.range occurrences).map (fun (i : ℕ) =>
      let s := base_start + (i : ℤ) * (hi_th.1 * 3600)
      { id := "med-" ++ drug_name ++ "-" ++ toString i ++ "-" ++ toString s,
        title := if title0 = "" then "Medication" else title0,
        start := s,
        stop := s + 600 }))
  | _ => Option.none

/-- `get_medication_events` (repository.py) over the selected user's
medication rows; `Option.none` models a propagated per-row exception (there
is no try/except around the loop there). -/
def get_medication_events (today : ℤ) (meds : List (List (String × PyVal))) :
    Option (List MedEvent) :=
  (meds.mapM (medication_events_for today)).map List.flatten

/-- `_intakes_left` (service.py): `max(0, floor(quantity_left /
max(1.0, dose_per_intake or 1)))`, 0 on exception. -/
def intakes_left (quantity_left dose_per_intake : PyVal) : ℕ :=
  match pyFloat quantity_left,
        pyFloat (if truthy dose_per_intake then dose_per_intake else .int 1) with
  | some q, some d0 => (max 0 ⌊q / max 1 d0⌋).toNat
  | _, _ => 0

/-- `_per_day_intakes` (service.py) on a schedule dict. -/
def per_day_intakes (schedule : List (String × PyVal)) : ℚ :=
  let t := pyLower (pyStrOf (dictGetD schedule "type" (.str "daily")))
  let times := dictGetD schedule "times" .none
  let times := if truthy times then times else .list []
  let cnt : ℕ := max 1 (match times with
    | .list l => if 0 < l.length then l.length else 1
    | _ => 1)
  if t = "daily" then (cnt : ℚ)
  else if t = "weekly" then (cnt : ℚ) / 7
  else 1

/-- Bit length of a natural number (auxiliary, structural fuel). -/
def bitLenAux : ℕ → ℕ → ℕ
  | 0, _ => 0
  | fuel + 1, n => if n = 0 then 0 else bitLenAux fuel (n / 2) + 1

/-- Bit length of a natural number. -/
def bitLen (n : ℕ) : ℕ := bitLenAux n n

/-- Round the non-negative rational `num / den` to IEEE-754 binary64
(round-to-nearest, ties-to-even), as a significand/exponent pair whose value
is `m * 2^e` with `2^52 <= m < 2^53` (or `m = 0`).  Overflow and subnormal
underflow lie outside the magnitudes this program produces and are not
modelled. -/
def ratToFloat (num den : ℕ) : ℕ × ℤ :=
  if num = 0 ∨ den = 0 then (0, 0)
  else
    let k : ℤ := (bitLen num : ℤ) - (bitLen den : ℤ)
    let e : ℤ :=
      if den * 2 ^ (max 0 k).toNat ≤ num * 2 ^ (max 0 (-k)).toNat then k - 52
      else k - 53
    let N : ℕ := num * 2 ^ (max 0 (-e)).toNat
    let D : ℕ := den * 2 ^ (max 0 e).toNat
    let q : ℕ := N / D
    let r : ℕ := N % D
    let m : ℕ :=
      if 2 * r < D then q
      else if D < 2 * r then q + 1
      else if q % 2 = 0 then q else q + 1
    (m, e)

/-- `float(n)` on a non-negative Python int. -/
def natToFloat (n : ℕ) : ℕ × ℤ := ratToFloat n 1

/-- Correctly rounded binary64 division of two non-negative floats (the
significand quotient is rounded once; the exponent shift is exact). -/
def floatDiv (a b : ℕ × ℤ) : ℕ × ℤ :=
  let f := ratToFloat a.1 b.1
  (f.1, f.2 + a.2 - b.2)

/-- `float.is_integer()` on a non-negative float. -/
def floatIsInt (f : ℕ × ℤ) : Bool :=
  if 0 ≤ f.2 then true else f.1 % 2 ^ (-f.2).toNat == 0

/-- `int(f)` on a non-negative float (truncation). -/
def floatTrunc (f : ℕ × ℤ) : ℤ :=
  if 0 ≤ f.2 then (f.1 : ℤ) * 2 ^ f.2.toNat
  else ((f.1 / 2 ^ (-f.2).toNat : ℕ) : ℤ)

/-- Exact rational value of a float. -/
def floatValQ (f : ℕ × ℤ) : ℚ := (f.1 : ℚ) * (2 : ℚ) ^ f.2

/-- The binary64 quotient `intakes_remaining / per_day` computed by
`_estimate_runout_date` (service.py line 105): the int `intakes` converted
to float, divided by the float holding the rate `pn / pd`. -/
def float_quotient (intakes pn pd : ℕ) : ℕ × ℤ :=
  floatDiv (natToFloat intakes) (ratToFloat pn pd)

/-- The `days_left` computation of `_estimate_runout_date` (service.py line
106) on the float quotient: `int(q)` when `q.is_integer()`, else
`int(q) + 1`. -/
def days_left_core (intakes pn pd : ℕ) : ℤ :=
  let q := float_quotient intakes pn pd
  if floatIsInt q then floatTrunc q else floatTrunc q + 1

/-- `days_left` from the exact per-day rate: the float the program holds for
`per_day` is the correctly rounded binary64 of that rate (exact in the daily
and fallback branches for counts below 2^53; one rounded division in the
weekly branch), applied here at the point of use. -/
def days_left_of (intakes : ℕ) (per_day : ℚ) : ℤ :=
  days_left_core intakes per_day.num.toNat per_day.den

/-- `_estimate_runout_date` (service.py).  `base_date` is an instant;
the result pairs the run-out instant (normalized to 08:00) with `days_left`,
obtained from the binary64 quotient via `days_left_of`.  `Option.none`
models the `AttributeError` raised on a truthy non-dict `schedule`. -/
def estimate_runout_date (m : List (String × PyVal)) (base_date : ℤ) :
    Option (Option ℤ × ℤ) :=
  let qty := dictGetD m "quantity_left" (.int 0)
  let dose := dictGetD m "dose_per_intake" (.int 1)
  let schedVal := dictGetD m "schedule" .none
  let schedVal := if truthy schedVal then schedVal else .dict []
  match schedVal with
  | .dict schedule =>
    let intakes := intakes_left qty dose
    let per_day := per_day_intakes schedule
    if per_day ≤ 0 then some (Option.none, 0)
    else
      let days := days_left_of intakes per_day
      some (some (dayOf (base_date + days * 86400) * 86400 + 28800), max 0 days)
  | _ => Option.none

/-- Notification categories (notifications/models.py). -/
inductive NotificationCategory where
  | reminder : NotificationCategory
  | low_stock : NotificationCategory
  | event_soon : NotificationCategory
deriving DecidableEq

/-- Notification (notifications/models.py); `due_at` is an instant in
seconds; the free-form `metadata` dict is not modelled (no claim concerns
it). -/
structure Notification where
  id : String
  category : NotificationCategory
  title : String
  message : String
  due_at : ℤ
  color : String
deriving DecidableEq

/-- Two-digit zero-padded rendering (for `strftime("%H:%M")`). -/
def twoDigit (n : ℤ) : String := (if n < 10 then "0" else "") ++ toString n

/-- `strftime("%H:%M")` of an instant. -/
def hhmmOf (t : ℤ) : String :=
  twoDigit ((t.emod 86400).fdiv 3600) ++ ":" ++ twoDigit ((t.emod 3600).fdiv 60)

/-- The reminder Notification built for one qualifying dose event
(service.py lines 133-150). -/
def reminder_of (ev : MedEvent) : Notification :=
  { id := "reminder:" ++ (if ev.id = "" then ev.title else ev.id) ++ ":" ++
      toString ev.start,
    category := .reminder,
    title := "Upcoming dose",
    message := "It\x27s almost time to take " ++ ev.title ++ " at " ++
      hhmmOf ev.start ++ ".",
    due_at := ev.start,
    color := "blue" }

/-- `_build_reminder_notifications` (service.py): keep dose events with
`window_start <= start <= window_end`, `window_end = now + 30min`. -/
def build_reminder_notifications (now : ℤ) : List MedEvent → List Notification
  | [] => []
  | ev :: rest =>
    if ev.start < now ∨ now + 1800 < ev.start then
      build_reminder_notifications now rest
    else reminder_of ev :: build_reminder_notifications now rest

/-- `title_name` of the low-stock pass (service.py lines 168-170). -/
def low_stock_title (m : List (String × PyVal)) : String :=
  let drug_name := pyStrip (pyStrOf (dictGetD m "drug_name" (.str "")))
  let strength := pyStrip (pyStrOf (dictGetD m "strength" (.str "")))
  let t := pyStrip (drug_name ++ " " ++ strength)
  if t = "" then "Medication" else t

/-- `when_text` of the low-stock pass (service.py line 176). -/
def low_stock_when_text (days : ℤ) : String :=
  if days = 1 then "in 1 day" else "in " ++ toString days ++ " days"

/-- One iteration of the `_build_low_stock_notifications` loop (service.py):
`Option.none` when the medication is skipped (estimator exception, no
runout date, or `days_left` outside `(0, 7]`). -/
def low_stock_of (now : ℤ) (m : List (String × PyVal)) : Option Notification :=
  match estimate_runout_date m now with
  | Option.none => Option.none
  | some (Option.none, _) => Option.none
  | some (some runout, days) =>
    if 0 < days ∧ days ≤ 7 then
      some { id := "lowstock:" ++ pyStrip (pyStrOf (dictGetD m "drug_name" (.str ""))) ++
               ":" ++ toString runout,
             category := .low_stock,
             title := "Running low",
             message := "You will run out of " ++ low_stock_title m ++ " " ++
               low_stock_when_text days ++ ".",
             due_at := runout,
             color := "red" }
    else Option.none

/-- `_build_low_stock_notifications` (service.py) over the user's medication
rows (rows whose loop body raises are skipped by the per-item except). -/
def build_low_stock_notifications (now : ℤ)
    (meds : List (List (String × PyVal))) : List Notification :=
  meds.filterMap (low_stock_of now)

/-- The "any medication scheduled today" gate of
`_build_event_soon_notifications` (service.py lines 249-256). -/
def has_med_today (now : ℤ) (medEvents : List MedEvent) : Bool :=
  medEvents.any (fun e => dayOf e.start == dayOf now)

/-- `_get_recent_meds_before_event` (service.py): stripped titles of dose
events with `event_start - 12h < start <= event_start`. -/
def get_recent_meds_before_event (medEvents : List MedEvent)
    (event_start : ℤ) : List String :=
  let window_start := event_start - 3600 * (max 1 12)
  medEvents.filterMap (fun e =>
    let t := pyStrip e.title
    if t = "" then Option.none
    else if window_start < e.start ∧ e.start ≤ event_start then some t
    else Option.none)

/-- An external calendar event as consumed by the event-soon pass.  `start`
is the parsed `start.date_time` (`Option.none` when missing or unparseable);
`title`/`summary` are `Option.none` when absent or falsy; `description`
is the collapsed `description or details or notes or body or ""` chain. -/
structure CalEvent where
  idOpt : Option String
  title : Option String
  summary : Option String
  description : String
  start : Option ℤ

/-- `(ev.get("title") or ev.get("summary") or "Event")`. -/
def cal_title (ev : CalEvent) : String :=
  ((ev.title).orElse (fun _ => ev.summary)).getD "Event"

/-- Advice retrieval with caching inside the event-soon loop (service.py
lines 298-318).  Returns the advice value, the advice-cache file after the
step, and whether the external generation call was made. -/
def advice_step (oracle : LlmOracle) (cache : JsonFile) (event_id : String)
    (event_start : ℤ) (title desc : String) (meds : List String)
    (baseUrl : String) : PyVal × JsonFile × Bool :=
  let key := make_advice_cache_key event_id event_start title desc meds baseUrl
  let advice0 : PyVal := (advice_cache_get key cache).getD .none
  if truthy advice0 then (advice0, cache, false)
  else
    let adv := llm_personalized_event_advice oracle title desc event_start meds
    if adv ≠ "" then (.str adv, advice_cache_set key (.str adv) cache, true)
    else (.str adv, cache, true)

/-- The Notification built for one qualifying calendar event in the
event-soon loop (service.py lines 277-344), threading the advice-cache
file. -/
def event_soon_of (now : ℤ) (medEvents : List MedEvent) (oracle : LlmOracle)
    (baseUrl : String) (ev : CalEvent) (s : ℤ) (cache : JsonFile) :
    Notification × JsonFile :=
  let title := cal_title ev
  let description := ev.description
  let recent := get_recent_meds_before_event medEvents s
  let med_names := sortBy pyStrLe recent.eraseDups
  let mins_left := max 0 ((s - now).fdiv 60)
  let hrs := mins_left.fdiv 60
  let mins := mins_left.emod 60
  let when_text :=
    if 0 < hrs then toString hrs ++ "h " ++ toString mins ++ "m"
    else toString mins ++ "m"
  let nid := "eventsoon:" ++ (ev.idOpt.getD title) ++ ":" ++ toString s
  let meds_text :=
    if med_names.isEmpty then "no recent meds"
    else String.intercalate ", " med_names
  let base_msg := "You have \x27" ++ title ++ "\x27 today in " ++ when_text ++
    ". Recent meds (≤12h): " ++ meds_text ++ "."
  let step := advice_step oracle cache (ev.idOpt.getD title) s title
    description med_names baseUrl
  let final_msg := pyStrip
    (if truthy step.1 then base_msg ++ " Advice: " ++ pyStrOf step.1
     else base_msg)
  ({ id := nid,
     category := .event_soon,
     title := "Event soon after your dose",
     message := final_msg,
     due_at := s,
     color := "brown" }, step.2.1)

/-- The calendar-event loop of `_build_event_soon_notifications`
(service.py lines 267-345): same-day events starting within `[now, now+8h]`
produce one notification each. -/
def event_soon_loop (now : ℤ) (medEvents : List MedEvent) (oracle : LlmOracle)
    (baseUrl : String) : List CalEvent → JsonFile → List Notification × JsonFile
  | [], cache => ([], cache)
  | ev :: rest, cache =>
    match ev.start with
    | Option.none => event_soon_loop now medEvents oracle baseUrl rest cache
    | some s =>
      if dayOf s ≠ dayOf now then
        event_soon_loop now medEvents oracle baseUrl rest cache
      else if ¬ (now ≤ s ∧ s ≤ now + 28800) then
        event_soon_loop now medEvents oracle baseUrl rest cache
      else
        let step := event_soon_of now medEvents oracle baseUrl ev s cache
        let restRes := event_soon_loop now medEvents oracle baseUrl rest step.2
        (step.1 :: restRes.1, restRes.2)

/-- `_build_event_soon_notifications` (service.py).  `calendarEvents` is the
result the calendar collaborator (`_load_calendar_events`, cached or live)
would return; the `Bool` component records whether that collaborator was
invoked at all. -/
def build_event_soon_notifications (now : ℤ) (medEvents : List MedEvent)
    (calendarEvents : List CalEvent) (cache : JsonFile) (oracle : LlmOracle)
    (baseUrl : String) : List Notification × JsonFile × Bool :=
  if has_med_today now medEvents then
    if calendarEvents.isEmpty then ([], cache, true)
    else
      let res := event_soon_loop now medEvents oracle baseUrl calendarEvents cache
      (res.1, res.2, true)
  else ([], cache, false)

/-- `_sort_key` (service.py): `due_at.timestamp()`, which on this instant
representation is the value itself (total, no crash on naive/aware mixes). -/
def sort_key (n : Notification) : ℤ := n.due_at

/-- Comparison used to model `all_items.sort(key=_sort_key)`. -/
def notifLe (a b : Notification) : Bool := decide (sort_key a ≤ sort_key b)

/-- `get_notifications` (service.py): union of the three passes sorted
ascending by `due_at` (the passes' outputs are parameters: each is produced
by the corresponding builder above). -/
def get_notifications (reminders lowStock eventSoon : List Notification) :
    List Notification :=
  sortBy notifLe (reminders ++ lowStock ++ eventSoon)

/-- Example medication row with empty stock. -/
def med_qty0 : List (String × PyVal) :=
  [("drug_name", .str "Aspirin"), ("strength", .str "100mg"),
   ("quantity_left", .int 0), ("dose_per_intake", .int 1),
   ("schedule", .dict [("type", .str "daily"), ("times", .list [.str "08:00"])])]

/-- Example medication row with 30 doses in stock, one intake per day. -/
def med_qty30 : List (String × PyVal) :=
  [("drug_name", .str "Aspirin"), ("strength", .str "100mg"),
   ("quantity_left", .int 30), ("dose_per_intake", .int 1),
   ("schedule", .dict [("type", .str "daily"), ("times", .list [.str "08:00"])])]

/-- Example medication row two doses from running out. -/
def med_aspirin : List (String × PyVal) :=
  [("drug_name", .str "Aspirin"), ("strength", .str "100mg"),
   ("quantity_left", .int 2), ("dose_per_intake", .int 1),
   ("schedule", .dict [("type", .str "daily"), ("times", .list [.str "08:00"])])]

/-- Weekly schedule listing 17 times. -/
def sched_weekly17 : List (String × PyVal) :=
  [("type", .str "weekly"), ("times", .list (List.replicate 17 (.str "08:00")))]

/-- Medication row with 17 doses left on that weekly schedule: the binary64
quotient `17 / (17/7)` is `7.000000000000001`, one ulp above the integral
exact quotient 7, so the source rounds the days up to 8. -/
def med_weekly17 : List (String × PyVal) :=
  [("drug_name", .str "Heparin"), ("strength", .str "5000IU"),
   ("quantity_left", .int 17), ("dose_per_intake", .int 1),
   ("schedule", .dict sched_weekly17)]

/-- A collaborator whose generation call always fails. -/
def silent_oracle : LlmOracle := fun _ _ _ _ => Option.none

/-- A 201-character completion content. -/
def advice_201 : String := String.mk (List.replicate 201 'a')

/-- Any element of `insertSorted le x l` is `x` or an element of `l`. -/
theorem mem_insertSorted {α : Type} (le : α → α → Bool) (x : α) (l : List α) (a : α) :
    a ∈ insertSorted le x l ↔ a = x ∨ a ∈ l := by
  induction l with
  | nil => simp [insertSorted]
  | cons y ys ih =>
    simp only [insertSorted]
    split
    · simp [or_comm, or_assoc, or_left_comm]
    · simp [ih]
      tauto

/-- Inserting into a sorted list keeps it sorted (for a total transitive
boolean comparison). -/
theorem pairwise_insertSorted {α : Type} (le : α → α → Bool)
    (htrans : ∀ a b c, le a b = true → le b c = true → le a c = true)
    (htot : ∀ a b, le a b = false → le b a = true)
    (x : α) (l : List α) (h : l.Pairwise (fun a b => le a b = true)) :
    (insertSorted le x l).Pairwise (fun a b => le a b = true) := by
  induction l with
  | nil => simp [insertSorted]
  | cons y ys ih =>
    simp only [insertSorted]
    rcases List.pairwise_cons.mp h with ⟨hy, hys⟩
    split
    · rename_i hxy
      refine List.pairwise_cons.mpr ⟨?_, h⟩
      intro b hb
      rcases List.mem_cons.mp hb with rfl | hb2
      · exact hxy
      · exact htrans _ y b hxy (hy _ hb2)
    · rename_i hxy
      refine List.pairwise_cons.mpr ⟨?_, ih hys⟩
      intro b hb
      rcases (mem_insertSorted le _ ys b).mp hb with rfl | hb2
      · exact htot _ y (by simpa using hxy)
      · exact hy _ hb2

/-- `insertSorted` is a permutation of pushing the element on top. -/
theorem perm_insertSorted {α : Type} (le : α → α → Bool) (x : α) (l : List α) :
    (insertSorted le x l).Perm (x :: l) := by
  induction l with
  | nil => simp [insertSorted]
  | cons y ys ih =>
    simp only [insertSorted]
    split
    · exact List.Perm.refl _
    · exact ((ih.cons y).trans (List.Perm.swap x y ys))

/-- `sortBy` output is sorted for a total transitive boolean comparison. -/
theorem pairwise_sortBy {α : Type} (le : α → α → Bool)
    (htrans : ∀ a b c, le a b = true → le b c = true → le a c = true)
    (htot : ∀ a b, le a b = false → le b a = true) (l : List α) :
    (sortBy le l).Pairwise (fun a b => le a b = true) := by
  induction l with
  | nil => simp [sortBy]
  | cons y ys ih => exact pairwise_insertSorted le htrans htot y _ ih

/-- `sortBy` output is a permutation of the input. -/
theorem perm_sortBy {α : Type} (le : α → α → Bool) (l : List α) :
    (sortBy le l).Perm l := by
  induction l with
  | nil => simp [sortBy]
  | cons y ys ih =>
    exact (perm_insertSorted le y (sortBy le ys)).trans (ih.cons y)

/-- Looking up a key just assigned in a Python dict returns the assigned
value. -/
theorem dictGet_assocSet (l : List (String × PyVal)) (k : String) (v : PyVal) :
    dictGet (assocSet l k v) k = some v := by
  induction l with
  | nil => simp [assocSet, dictGet]
  | cons p rest ih =>
    simp only [assocSet]
    split
    · simp [dictGet]
    · rename_i hne
      simp only [dictGet, List.find?] at *
      rw [show (p.1 == k) = false from by simpa using fun h => hne (by simp [h])]
      exact ih

/-- The integral-test-then-round-up rule of the estimator equals the
ceiling, for any rational. -/
theorem ceil_rule (x : ℚ) :
    (if x.den = 1 then ⌊x⌋ else ⌊x⌋ + 1) = ⌈x⌉ := by
  by_cases hden : x.den = 1
  · rw [if_pos hden]
    have h : ((x.num : ℚ)) = x := Rat.coe_int_num_of_den_eq_one hden
    calc ⌊x⌋ = ⌊((x.num : ℤ) : ℚ)⌋ := by rw [h]
      _ = x.num := Int.floor_intCast _
      _ = ⌈x⌉ := by rw [← Int.ceil_intCast (α := ℚ) x.num, h]
  · rw [if_neg hden]
    have hlt : ((⌊x⌋ : ℚ)) < x := by
      rcases lt_or_eq_of_le (Int.floor_le x) with h | h
      · exact h
      · exact absurd (by rw [← h]; exact Rat.den_intCast _) hden
    have h1 : ⌊x⌋ + 1 ≤ ⌈x⌉ := Int.lt_ceil.mpr hlt
    have h2 : ⌈x⌉ ≤ ⌊x⌋ + 1 := Int.ceil_le_floor_add_one _
    omega

/-- A negative power of two over ℚ as the inverse of a natural cast. -/
theorem two_zpow_of_neg (e : ℤ) (he : ¬ 0 ≤ e) :
    (2:ℚ) ^ e = ((2 ^ (-e).toNat : ℕ) : ℚ)⁻¹ := by
  have h1 : (2:ℚ) ^ e = ((2:ℚ) ^ (((-e).toNat : ℕ) : ℤ))⁻¹ := by
    rw [← zpow_neg]
    congr 1
    omega
  rw [h1, zpow_natCast]
  norm_cast

/-- `floatTrunc` computes the floor of the float's value (floats here are
non-negative). -/
theorem floatTrunc_eq_floor (f : ℕ × ℤ) : floatTrunc f = ⌊floatValQ f⌋ := by
  obtain ⟨m, e⟩ := f
  simp only [floatTrunc, floatValQ]
  by_cases he : 0 ≤ e
  · rw [if_pos he]
    have h2 : (2:ℚ) ^ e = (2:ℚ) ^ e.toNat := by
      rw [← zpow_natCast, Int.toNat_of_nonneg he]
    rw [h2,
      show (m:ℚ) * (2:ℚ) ^ e.toNat = (((m * 2 ^ e.toNat : ℕ) : ℤ) : ℚ) by
        push_cast; ring,
      Int.floor_intCast]
    push_cast
    ring
  · rw [if_neg he, two_zpow_of_neg e he,
      show (m:ℚ) * ((2 ^ (-e).toNat : ℕ) : ℚ)⁻¹ =
          ((m : ℕ) : ℚ) / ((2 ^ (-e).toNat : ℕ) : ℚ) by ring,
      Rat.floor_natCast_div_natCast]
    exact Int.ofNat_tdiv _ _

/-- `floatIsInt` decides integrality of the float's value. -/
theorem floatIsInt_iff (f : ℕ × ℤ) :
    floatIsInt f = true ↔ (floatValQ f).den = 1 := by
  obtain ⟨m, e⟩ := f
  simp only [floatIsInt, floatValQ]
  by_cases he : 0 ≤ e
  · rw [if_pos he]
    have h2 : (2:ℚ) ^ e = (2:ℚ) ^ e.toNat := by
      rw [← zpow_natCast, Int.toNat_of_nonneg he]
    rw [h2,
      show (m:ℚ) * (2:ℚ) ^ e.toNat = (((m * 2 ^ e.toNat : ℕ)) : ℚ) by
        push_cast; ring]
    simp only [Rat.den_natCast]
  · rw [if_neg he, two_zpow_of_neg e he,
      show (m:ℚ) * ((2 ^ (-e).toNat : ℕ) : ℚ)⁻¹ =
          ((m : ℕ) : ℚ) / ((2 ^ (-e).toNat : ℕ) : ℚ) by ring,
      Rat.den_div_natCast_eq_one_iff m _ (pow_ne_zero _ (by norm_num))]
    simp [Nat.dvd_iff_mod_eq_zero]

/-- `_per_day_intakes` is bounded below by one seventh on every schedule
dict. -/
theorem per_day_intakes_ge (schedule : List (String × PyVal)) :
    (1:ℚ)/7 ≤ per_day_intakes schedule := by
  have key : ∀ k : ℕ, (1:ℚ)/7 ≤ ((max 1 k : ℕ) : ℚ) := by
    intro k
    have h : (1:ℚ) ≤ ((max 1 k : ℕ) : ℚ) := by exact_mod_cast Nat.le_max_left 1 k
    linarith
  have key7 : ∀ k : ℕ, (1:ℚ)/7 ≤ ((max 1 k : ℕ) : ℚ) / 7 := by
    intro k
    have h : (1:ℚ) ≤ ((max 1 k : ℕ) : ℚ) := by exact_mod_cast Nat.le_max_left 1 k
    linarith
  simp only [per_day_intakes]
  split
  · exact key _
  · split
    · exact key7 _
    · norm_num

/-- C9 (confirmed): an unreadable or invalid-JSON cache file — for both the
calendar-event cache and the advice cache — loads as an empty cache rather
than raising, and a subsequent successful write reconstructs the store: the
entry written right after the corruption is readable again. -/
theorem claim9_corrupt_cache_recovery (cid : String) (evs : List PyVal)
    (key : String) (v : PyVal) :
    load_cache JsonFile.unreadable = [] ∧
    load_advice_cache JsonFile.unreadable = [] ∧
    get_events cid (set_events cid evs JsonFile.unreadable) = PyVal.list evs ∧
    advice_cache_get key (advice_cache_set key v JsonFile.unreadable) = some v := by
  refine ⟨rfl, rfl, ?_, ?_⟩
  · simp [get_events, set_events, load_cache, save_cache, dictGetD, dictGet_assocSet]
  · simp [advice_cache_get, advice_cache_set, load_advice_cache,
      save_advice_cache, dictGet_assocSet]

/-- C6 (confirmed): the reminder pass keeps a projected dose event exactly
when `now <= start <= now + 30min`, both boundaries inclusive: it equals the
filter of the event list by that window, mapped to reminder
notifications. -/
theorem claim6_reminder_window (now : ℤ) (events : List MedEvent) :
    build_reminder_notifications now events =
      (events.filter (fun e => decide (now ≤ e.start ∧ e.start ≤ now + 1800))).map
        reminder_of := by
  induction events with
  | nil => rfl
  | cons ev rest ih =>
    simp only [build_reminder_notifications]
    by_cases h : ev.start < now ∨ now + 1800 < ev.start
    · rw [if_pos h, ih]
      have hd : ¬ (now ≤ ev.start ∧ ev.start ≤ now + 1800) := by omega
      simp [List.filter_cons, hd]
    · rw [if_neg h, ih]
      have hd : now ≤ ev.start ∧ ev.start ≤ now + 1800 := by omega
      simp [List.filter_cons, hd]

/-- C7 (confirmed): the top-level notification list is sorted non-decreasing
by `due_at` (compared as absolute instants via the total sort key) and is a
permutation of the union of the three passes. -/
theorem claim7_sorted_output (reminders lowStock eventSoon : List Notification) :
    (get_notifications reminders lowStock eventSoon).Pairwise
      (fun a b => a.due_at ≤ b.due_at) ∧
    (get_notifications reminders lowStock eventSoon).Perm
      (reminders ++ lowStock ++ eventSoon) := by
  have htrans : ∀ a b c : Notification,
      notifLe a b = true → notifLe b c = true → notifLe a c = true := by
    intro a b c hab hbc
    simp only [notifLe, sort_key, decide_eq_true_eq] at *
    omega
  have htot : ∀ a b : Notification, notifLe a b = false → notifLe b a = true := by
    intro a b h
    simp only [notifLe, sort_key, decide_eq_true_eq, decide_eq_false_iff_not] at *
    omega
  constructor
  · have hp := pairwise_sortBy notifLe htrans htot
      (reminders ++ lowStock ++ eventSoon)
    exact hp.imp (fun {a b} (h : notifLe a b = true) => by
      simpa [notifLe, sort_key] using h)
  · exact perm_sortBy _ _

/-- C2 (confirmed): if no projected dose event falls on the same calendar
date as `now`, the event-soon pass returns no notification, leaves the
advice cache untouched, and never invokes the calendar collaborator
(the `false` flag), whatever the calendar content would have been. -/
theorem claim2_event_soon_short_circuit (now : ℤ) (medEvents : List MedEvent)
    (calendarEvents : List CalEvent) (cache : JsonFile) (oracle : LlmOracle)
    (baseUrl : String)
    (h : ∀ e ∈ medEvents, dayOf e.start ≠ dayOf now) :
    build_event_soon_notifications now medEvents calendarEvents cache oracle
      baseUrl = ([], cache, false) := by
  have hb : has_med_today now medEvents = false := by
    simp only [has_med_today, List.any_eq_false]
    intro e he
    simpa using h e he
  simp [build_event_soon_notifications, hb]

/-- Concrete instance of the event-soon short-circuit: one dose event five
days from `now`, a same-day calendar event present. -/
theorem claim2_witness :
    build_event_soon_notifications 0
      [⟨"med-Aspirin-0-432000", "Aspirin 100mg", 432000, 432600⟩]
      [⟨some "ev1", some "Party", Option.none, "", some 3600⟩]
      JsonFile.missing silent_oracle "default" = ([], JsonFile.missing, false) :=
  claim2_event_soon_short_circuit 0
    [⟨"med-Aspirin-0-432000", "Aspirin 100mg", 432000, 432600⟩]
    [⟨some "ev1", some "Party", Option.none, "", some 3600⟩]
    JsonFile.missing silent_oracle "default" (by decide)

/-- C3 (confirmed): the advice-cache key is a pure function of the semantic
context `(event_id, event_start, title, description, medication names,
model, endpoint)`, so identical contexts give identical keys across runs;
after `set(key, text)` a `get(key)` returns that text, and the advice step
on the same context is then a cache hit that makes no external generation
call. -/
theorem claim3_advice_cache_hit (eid : String) (s : ℤ) (title desc : String)
    (meds : List String) (baseUrl : String) (f : JsonFile) (t : String)
    (oracle : LlmOracle) (ht : t ≠ "") :
    advice_cache_get (make_advice_cache_key eid s title desc meds baseUrl)
        (advice_cache_set (make_advice_cache_key eid s title desc meds baseUrl)
          (PyVal.str t) f) = some (PyVal.str t) ∧
    advice_step oracle
        (advice_cache_set (make_advice_cache_key eid s title desc meds baseUrl)
          (PyVal.str t) f) eid s title desc meds baseUrl =
      (PyVal.str t,
       advice_cache_set (make_advice_cache_key eid s title desc meds baseUrl)
         (PyVal.str t) f,
       false) := by
  have hg : advice_cache_get (make_advice_cache_key eid s title desc meds baseUrl)
      (advice_cache_set (make_advice_cache_key eid s title desc meds baseUrl)
        (PyVal.str t) f) = some (PyVal.str t) := by
    simp [advice_cache_get, advice_cache_set, load_advice_cache,
      save_advice_cache, dictGet_assocSet]
  refine ⟨hg, ?_⟩
  simp only [advice_step, hg]
  simp [truthy, ht]

/-- Concrete instance of the advice-cache hit on a written entry. -/
theorem claim3_witness :
    advice_cache_get (make_advice_cache_key "e1" 3600 "Party" "" [] "default")
        (advice_cache_set (make_advice_cache_key "e1" 3600 "Party" "" [] "default")
          (PyVal.str "Avoid alcohol.") JsonFile.missing) =
      some (PyVal.str "Avoid alcohol.") ∧
    advice_step silent_oracle
        (advice_cache_set (make_advice_cache_key "e1" 3600 "Party" "" [] "default")
          (PyVal.str "Avoid alcohol.") JsonFile.missing)
        "e1" 3600 "Party" "" [] "default" =
      (PyVal.str "Avoid alcohol.",
       advice_cache_set (make_advice_cache_key "e1" 3600 "Party" "" [] "default")
         (PyVal.str "Avoid alcohol.") JsonFile.missing,
       false) :=
  claim3_advice_cache_hit "e1" 3600 "Party" "" [] "default" JsonFile.missing
    "Avoid alcohol." silent_oracle (by decide)

/-- C4 (corrected): the Runout Estimator computes `days_left` from the
binary64 float quotient `float(intakes_remaining) / float(per_day_rate)`,
rounding up exactly when that float quotient is not an integer.  Whenever
the float quotient is exact — equal to the true quotient — this is the
ceiling rule of the claim; in particular a medication with 30 units, one
unit per intake and a daily schedule with one listed time yields
`days_left = 30` and a runout date of the base date plus 30 days at 08:00.
The integrality test applies to the float quotient, not the exact one (see
the counterexample). -/
theorem claim4_runout_estimator :
    (∀ (intakes : ℕ) (per_day : ℚ), 0 < per_day →
      floatValQ (float_quotient intakes per_day.num.toNat per_day.den) =
        (intakes : ℚ) / per_day →
      days_left_of intakes per_day = ⌈(intakes : ℚ) / per_day⌉) ∧
    (∀ base : ℤ, estimate_runout_date med_qty30 base =
      some (some ((dayOf base + 30) * 86400 + 28800), 30)) := by
  constructor
  · intro i p hp hq
    simp only [days_left_of, days_left_core]
    rw [floatTrunc_eq_floor, hq]
    by_cases hint : floatIsInt (float_quotient i p.num.toNat p.den) = true
    · rw [if_pos hint]
      have hden : ((i:ℚ)/p).den = 1 := by
        rw [← hq]
        exact (floatIsInt_iff _).mp hint
      have hc := ceil_rule ((i:ℚ)/p)
      rw [if_pos hden] at hc
      exact hc
    · rw [if_neg hint]
      have hden : ¬ ((i:ℚ)/p).den = 1 := by
        intro h
        exact hint ((floatIsInt_iff _).mpr (by rw [hq]; exact h))
      have hc := ceil_rule ((i:ℚ)/p)
      rw [if_neg hden] at hc
      exact hc
  · intro base
    have hd : days_left_core 30 1 1 = 30 := by decide
    have hday : dayOf (base + 30 * 86400) = dayOf base + 30 := by
      unfold dayOf
      rw [Int.fdiv_eq_ediv _ (by norm_num), Int.fdiv_eq_ediv _ (by norm_num)]
      omega
    have h2 : estimate_runout_date med_qty30 base =
        some (some (dayOf (base + 30 * 86400) * 86400 + 28800), 30) := by
      simp [estimate_runout_date, med_qty30, dictGetD, dictGet, truthy,
        intakes_left, pyFloat, per_day_intakes, days_left_of, hd,
        pyStrOf, pyLower, charLower]
    rw [h2, hday]

/-- Refutation of the claim as stated: 17 doses on a weekly schedule with 17
listed times has `per_day_rate = 17/7` and the exactly integral quotient
`17 / (17/7) = 7`, yet the code computes `days_left = 8` — the float
quotient `7.000000000000001` fails `is_integer()` and is rounded up, so
`days_left` is not the stated "rounded up only when not exactly
integral" value 7. -/
theorem claim4_counterexample :
    estimate_runout_date med_weekly17 0 = some (some 720000, 8) ∧
    (17:ℚ) / per_day_intakes sched_weekly17 = 7 ∧
    ((17:ℚ) / per_day_intakes sched_weekly17).den = 1 ∧
    (8:ℤ) ≠ ⌈(17:ℚ) / per_day_intakes sched_weekly17⌉ := by
  have hpd : per_day_intakes sched_weekly17 = (17:ℚ)/7 := by
    simp [per_day_intakes, sched_weekly17, dictGetD, dictGet, truthy,
      pyStrOf, pyLower, charLower]
  have hq7 : (17:ℚ) / ((17:ℚ)/7) = 7 := by norm_num
  have heq177 : ((17:ℤ):ℚ) / ((7:ℤ):ℚ) = (17:ℚ)/7 := by norm_num
  have hnum : ((17:ℚ)/7).num = 17 := by
    have h := Rat.num_div_eq_of_coprime (a := 17) (b := 7) (by norm_num)
      (by decide)
    rw [heq177] at h
    exact h
  have hden : ((17:ℚ)/7).den = 7 := by
    have h := Rat.den_div_eq_of_coprime (a := 17) (b := 7) (by norm_num)
      (by decide)
    rw [heq177] at h
    exact_mod_cast h
  have hd17 : days_left_core 17 17 7 = 8 := by decide
  have hest : estimate_runout_date med_weekly17 0 = some (some 720000, 8) := by
    have hmid : estimate_runout_date med_weekly17 0 =
        some (some (dayOf (8 * 86400) * 86400 + 28800), 8) := by
      simp [estimate_runout_date, med_weekly17, sched_weekly17, dictGetD,
        dictGet, truthy, intakes_left, pyFloat, per_day_intakes,
        days_left_of, hnum, hden, hd17, pyStrOf, pyLower, charLower]
    rw [hmid]
    decide
  refine ⟨hest, by rw [hpd]; exact hq7, ?_, ?_⟩
  · rw [hpd, hq7]
    norm_num
  · rw [hpd, hq7]
    norm_num

/-- Concrete instance of the amended estimator contract: an exact float
quotient (30 over a rate of 1) obeys the ceiling rule, and the 30-unit daily
medication runs out 30 days after base 0. -/
theorem claim4_witness :
    (0:ℚ) < 1 ∧
    days_left_of 30 1 = ⌈((30 : ℕ) : ℚ) / 1⌉ ∧
    estimate_runout_date med_qty30 0 =
      some (some ((dayOf 0 + 30) * 86400 + 28800), 30) :=
  ⟨by norm_num,
   claim4_runout_estimator.1 30 1 (by norm_num) (by
     have hn : (1:ℚ).num.toNat = 1 := by norm_num
     have hdn : (1:ℚ).den = 1 := Rat.den_one
     rw [hn, hdn]
     have h1 : float_quotient 30 1 1 = (8444249301319680, -48) := by decide
     rw [h1]
     have h2 : (2:ℚ) ^ (-48 : ℤ) = ((2 ^ 48 : ℕ) : ℚ)⁻¹ :=
       two_zpow_of_neg (-48) (by norm_num)
     rw [floatValQ, h2]
     norm_num),
   claim4_runout_estimator.2 0⟩

/-- C10 (confirmed): `_per_day_intakes` is at least one seventh (hence
strictly positive) for every schedule dict, so the `per_day <= 0` guard of
the estimator is unreachable: whenever the estimator returns (no exception),
it returns a concrete runout date and a non-negative `days_left`. -/
theorem claim10_estimator_total :
    (∀ schedule : List (String × PyVal), (1:ℚ)/7 ≤ per_day_intakes schedule) ∧
    (∀ (m : List (String × PyVal)) (base : ℤ) (r : Option ℤ × ℤ),
      estimate_runout_date m base = some r → r.1.isSome ∧ 0 ≤ r.2) := by
  refine ⟨per_day_intakes_ge, ?_⟩
  intro m base r h
  simp only [estimate_runout_date] at h
  split at h
  · rename_i schedule heq
    have hpd := per_day_intakes_ge schedule
    rw [if_neg (by linarith : ¬ per_day_intakes schedule ≤ 0)] at h
    have h2 := Option.some.inj h
    subst h2
    exact ⟨rfl, le_max_left 0 _⟩
  · cases h

/-- Concrete instance: the estimator on a two-dose medication returns a
concrete date and non-negative days. -/
theorem claim10_witness :
    ((some (201600:ℤ), (2:ℤ)) : Option ℤ × ℤ).1.isSome ∧
    (0:ℤ) ≤ ((some (201600:ℤ), (2:ℤ)) : Option ℤ × ℤ).2 :=
  claim10_estimator_total.2 med_aspirin 0 (some 201600, 2) (by
    have hd : days_left_core 2 1 1 = 2 := by decide
    have h1 : estimate_runout_date med_aspirin 0 =
        some (some (dayOf 172800 * 86400 + 28800), 2) := by
      simp [estimate_runout_date, med_aspirin, dictGetD, dictGet, truthy,
        intakes_left, pyFloat, per_day_intakes, days_left_of, hd,
        pyStrOf, pyLower, charLower]
    rw [h1]
    decide)

/-- C5 (confirmed): the low-stock pass is the per-medication filter-map of
`low_stock_of`, which yields a notification exactly when the estimator
returns a runout date with `0 < days_left <= 7` (so `days_left = 0` or `8`
yield none), and the notification's message is phrased "in 1 day" when
`days_left = 1` and "in N days" otherwise. -/
theorem claim5_low_stock_iff (now : ℤ) (meds : List (List (String × PyVal)))
    (m : List (String × PyVal)) :
    build_low_stock_notifications now meds = meds.filterMap (low_stock_of now) ∧
    ((low_stock_of now m).isSome ↔
      ∃ runout days, estimate_runout_date m now = some (some runout, days) ∧
        0 < days ∧ days ≤ 7) ∧
    (∀ runout days, estimate_runout_date m now = some (some runout, days) →
      0 < days → days ≤ 7 →
      low_stock_of now m = some
        { id := "lowstock:" ++ pyStrip (pyStrOf (dictGetD m "drug_name" (.str ""))) ++
            ":" ++ toString runout,
          category := .low_stock,
          title := "Running low",
          message := "You will run out of " ++ low_stock_title m ++ " " ++
            low_stock_when_text days ++ ".",
          due_at := runout,
          color := "red" }) := by
  refine ⟨rfl, ?_, ?_⟩
  · cases heq : estimate_runout_date m now with
    | none => simp [low_stock_of, heq]
    | some r =>
      obtain ⟨ro, days⟩ := r
      cases ro with
      | none => simp [low_stock_of, heq]
      | some rd =>
        simp only [low_stock_of, heq]
        by_cases hc : 0 < days ∧ days ≤ 7
        · rw [if_pos hc]
          simp only [Option.isSome_some, true_iff]
          exact ⟨rd, days, rfl, hc⟩
        · rw [if_neg hc]
          simp only [Option.isSome_none, Bool.false_eq_true, false_iff]
          rintro ⟨runout, days2, heq2, hd1, hd2⟩
          simp only [Option.some.injEq, Prod.mk.injEq] at heq2
          obtain ⟨hr, hd⟩ := heq2
          exact hc (by omega)
  · intro runout days h h1 h2
    simp only [low_stock_of, h]
    rw [if_pos ⟨h1, h2⟩]

/-- Concrete instance: the two-dose aspirin row yields exactly the expected
low-stock notification. -/
theorem claim5_witness :
    low_stock_of 0 med_aspirin = some
      { id := "lowstock:" ++ pyStrip (pyStrOf (dictGetD med_aspirin "drug_name"
            (.str ""))) ++ ":" ++ toString (201600:ℤ),
        category := .low_stock,
        title := "Running low",
        message := "You will run out of " ++ low_stock_title med_aspirin ++ " " ++
          low_stock_when_text 2 ++ ".",
        due_at := 201600,
        color := "red" } :=
  (claim5_low_stock_iff 0 [] med_aspirin).2.2 201600 2 (by
    have hd : days_left_core 2 1 1 = 2 := by decide
    have h1 : estimate_runout_date med_aspirin 0 =
        some (some (dayOf 172800 * 86400 + 28800), 2) := by
      simp [estimate_runout_date, med_aspirin, dictGetD, dictGet, truthy,
        intakes_left, pyFloat, per_day_intakes, days_left_of, hd,
        pyStrOf, pyLower, charLower]
    rw [h1]
    decide) (by norm_num) (by norm_num)

/-- C1 (corrected): the Event Projector's occurrence count for a medication
record is `max(1, int(quantity_left))` (1 when `int` raises), independent of
`dose_per_intake`; it is therefore at least 1 — never zero or negative and
no exception — and it coincides with the Runout Estimator's `_intakes_left`
only on favourable inputs, e.g. integer `quantity_left >= 1` with
`dose_per_intake = 1`. -/
theorem claim1_projector_count_amended (today : ℤ) (m : List (String × PyVal))
    (evs : List MedEvent) (h : medication_events_for today m = some evs) :
    evs.length = med_occurrences (dictGetD m "quantity_left" (PyVal.int 1)) ∧
    1 ≤ evs.length ∧
    (∀ q : ℤ, 1 ≤ q →
      intakes_left (PyVal.int q) (PyVal.int 1) = (max 1 q).toNat) := by
  have hlen : evs.length =
      med_occurrences (dictGetD m "quantity_left" (PyVal.int 1)) := by
    simp only [medication_events_for] at h
    split at h
    · injection h with h2
      subst h2
      rw [List.length_map, List.length_range]
    · cases h
  have hocc : 1 ≤ med_occurrences (dictGetD m "quantity_left" (PyVal.int 1)) := by
    cases hq : pyInt (dictGetD m "quantity_left" (PyVal.int 1)) with
    | none => simp [med_occurrences, hq]
    | some n =>
      simp only [med_occurrences, hq]
      omega
  refine ⟨hlen, hlen ▸ hocc, ?_⟩
  intro q hq
  simp only [intakes_left, pyFloat, truthy]
  norm_num
  omega

/-- Refutation of the claim as stated: a medication with `quantity_left = 0`
and `dose_per_intake = 1` is projected to one dose event, while
`floor(quantity_left / max(1, dose_per_intake))` — the Runout Estimator's
intake count — is 0, so the projector's count is neither that value nor zero
on empty stock. -/
theorem claim1_counterexample :
    (medication_events_for 0 med_qty0).map List.length = some 1 ∧
    intakes_left (PyVal.int 0) (PyVal.int 1) = 0 ∧
    (medication_events_for 0 med_qty0).map List.length ≠
      some (intakes_left (PyVal.int 0) (PyVal.int 1)) := by
  have h1 : (medication_events_for 0 med_qty0).map List.length = some 1 := by
    decide
  have h2 : intakes_left (PyVal.int 0) (PyVal.int 1) = 0 := by
    simp [intakes_left, pyFloat, truthy]
  refine ⟨h1, h2, ?_⟩
  rw [h1, h2]
  simp

/-- Concrete instance of the amended projector-count contract. -/
theorem claim1_witness :
    ([⟨"med-Aspirin-0-28800", "Aspirin 100mg", 28800, 29400⟩] : List MedEvent).length =
      med_occurrences (dictGetD med_qty0 "quantity_left" (PyVal.int 1)) ∧
    1 ≤ ([⟨"med-Aspirin-0-28800", "Aspirin 100mg", 28800, 29400⟩] :
      List MedEvent).length ∧
    (∀ q : ℤ, 1 ≤ q →
      intakes_left (PyVal.int q) (PyVal.int 1) = (max 1 q).toNat) :=
  claim1_projector_count_amended 0 med_qty0
    [⟨"med-Aspirin-0-28800", "Aspirin 100mg", 28800, 29400⟩] (by decide)

/-- The advice truncation bound: at most 201 characters (200 kept characters
plus the appended ellipsis). -/
theorem truncate_advice_len (c : String) : (truncate_advice c).length ≤ 201 := by
  unfold truncate_advice
  split
  · have h1 : (pyTake c 200).length ≤ 200 := by
      simp only [pyTake, String.length]
      exact List.length_take_le 200 c.data
    have h2 : (pyRstrip (pyTake c 200)).length ≤ (pyTake c 200).length := by
      simp only [pyRstrip, String.length, List.length_reverse]
      calc (List.dropWhile (fun c => c.isWhitespace)
            (pyTake c 200).data.reverse).length
          ≤ (pyTake c 200).data.reverse.length :=
            (List.dropWhile_sublist _).length_le
        _ = (pyTake c 200).data.length := List.length_reverse _
    have h3 : (pyRstrip (pyTake c 200) ++ "…").length =
        (pyRstrip (pyTake c 200)).length + 1 := by
      rw [String.length_append]
      have h4 : ("…" : String).length = 1 := by decide
      omega
    omega
  · rename_i hle
    omega

/-- C8 (corrected): the advisory text produced by the generation helper is
at most 201 characters — when the completion content exceeds 200 characters
it is cut to its first 200 characters, trailing whitespace stripped, and one
ellipsis character appended; content of at most 200 characters is returned
unchanged. -/
theorem claim8_advice_length_amended (oracle : LlmOracle)
    (event_title event_description : String) (event_start : ℤ)
    (medications : List String) :
    (llm_personalized_event_advice oracle event_title event_description
      event_start medications).length ≤ 201 ∧
    (∀ content : String, content.length ≤ 200 →
      truncate_advice content = content) := by
  constructor
  · simp only [llm_personalized_event_advice]
    split
    · simp [String.length]
    · exact truncate_advice_len _
  · intro content hc
    unfold truncate_advice
    rw [if_neg (by omega : ¬ content.length > 200)]

set_option maxRecDepth 4000 in
/-- Refutation of the claim as stated: a 201-character completion with no
trailing whitespace yields an attached advisory text of exactly 201
characters, exceeding the claimed 200-character bound. -/
theorem claim8_counterexample :
    (llm_personalized_event_advice (fun _ _ _ _ => some advice_201) "Surgery" ""
      0 []).length = 201 ∧
    ¬ ((llm_personalized_event_advice (fun _ _ _ _ => some advice_201) "Surgery"
      "" 0 []).length ≤ 200) := by
  constructor
  · decide
  · decide

/-- Concrete instance of the amended truncation contract. -/
theorem claim8_witness :
    ("ok" : String).length ≤ 200 ∧ truncate_advice "ok" = "ok" :=
  ⟨by decide,
   (claim8_advice_length_amended silent_oracle "t" "" 0 []).2 "ok" (by decide)⟩
